import Mathlib

/-!
Shallow embedding of the session orchestrator and study-plan state machine
of `src/server/routes/socratic.js` (an Express router).  Each route handler
is embedded as a pure Lean function on an explicit `Session` state; the
external reasoning service ("Reasoning Gateway") is modelled by passing its
response (or `none` for a failed call) as an argument.  Transcript strings
keep the wording of the source with emoji and apostrophes elided.
-/

set_option autoImplicit false

namespace Socratic

/-- Role of a transcript entry, as in the `messages` array of the session. -/
inductive Role where
  | user
  | assistant
deriving DecidableEq, Repr

/-- One transcript entry (`{role, content}` in `session.messages`). -/
structure Message where
  role : Role
  content : String
deriving DecidableEq, Repr

/-- One study-plan entry (`{topic, description, status}` in `session.studyPlan`).
Statuses used by the code are the strings "pending", "in-progress", "completed",
but the manual route stores any string it is given. -/
structure Topic where
  topic : String
  description : String
  status : String
deriving DecidableEq, Repr

/-- The session document persisted per tutoring session (`SocraticSession`).
`currentTopicIndex` is a JS number; we model it as `Int` so that negative
sentinels are representable. -/
structure Session where
  fileHashes : List String
  filenames : List String
  messages : List Message
  studyPlan : List Topic
  currentTopicIndex : Int
  learningLevel : String
deriving DecidableEq, Repr

/-- Modelled from the spec: the `SocraticSession` schema file is not under
`src/`; the upload route initializes `fileHashes`, `filenames` and `messages`
to empty arrays explicitly (lines 71-76), and the spec gives the remaining
defaults: no plan, sentinel cursor -1, default level beginner. -/
def newSession : Session :=
  { fileHashes := []
    filenames := []
    messages := []
    studyPlan := []
    currentTopicIndex := -1
    learningLevel := "beginner" }

/-- One topic of the gateway response of `POST /generate_plan`
(`study_plan: [{topic, description}]`). -/
structure PlanItem where
  topic : String
  description : String
deriving DecidableEq, Repr

/-- `plan[i].status = st` as executed by the JS routes: the routes only assign
through an index they have checked, so the out-of-range case never fires there. -/
def setStatusAt (plan : List Topic) (i : Nat) (st : String) : List Topic :=
  match plan.get? i with
  | some t => plan.set i { t with status := st }
  | none => plan

/-- `plan[i].topic`, defaulting to the empty string out of range. -/
def topicNameAt (plan : List Topic) (i : Nat) : String :=
  ((plan.get? i).map Topic.topic).getD ""

/-- `plan[i].description`, defaulting to the empty string out of range. -/
def topicDescAt (plan : List Topic) (i : Nat) : String :=
  ((plan.get? i).map Topic.description).getD ""

/-- `plan[i].status`, defaulting to the empty string out of range. -/
def topicStatusAt (plan : List Topic) (i : Nat) : String :=
  ((plan.get? i).map Topic.status).getD ""

/-- The list of statuses of a plan, in order. -/
def statuses (plan : List Topic) : List String :=
  plan.map Topic.status

/-- Number of topics whose status is "in-progress". -/
def countInProgress (plan : List Topic) : Nat :=
  (statuses plan).count "in-progress"

/- ### Route 1: POST /upload (attach-document) -/

/-- The assistant transcript entry pushed by the upload route
(line 86 of socratic.js); `summary ?` in JS treats the empty string as absent. -/
def analyzedMsg (filename summary : String) : Message :=
  { role := Role.assistant
    content := "I have analyzed **" ++ filename ++ "**. " ++
      (if summary ≠ "" then "\n\n**Summary:**\n" ++ summary else "") }

/-- The pure state effect of the upload route on a loaded (or fresh) session,
given the summary returned by a successful ingest call (lines 79-87):
append hash and name only when the hash is new, then append the analysis
transcript entry. -/
def attachDocument (s : Session) (fileHash filename summary : String) : Session :=
  let s :=
    if fileHash ∈ s.fileHashes then s
    else { s with fileHashes := s.fileHashes ++ [fileHash]
                  filenames := s.filenames ++ [filename] }
  { s with messages := s.messages ++ [analyzedMsg filename summary] }

/-- Result of one execution of the upload route: the session state that was
persisted (or an error response), and whether the `fs.unlinkSync(filepath)`
on line 92 executed on this path. -/
structure UploadExec where
  response : Except String Session
  tempFileDeleted : Bool
deriving Repr

/-- The upload route (lines 30-105).  `existing` is the session found for
`(sessionId, userId)` (none creates a fresh one); `ingestResult` is the
summary of a successful `POST /ingest` call, `none` when that call throws;
`saveSucceeds` models `session.save()`.  The temp-file unlink on line 92 is
inside the `try`, after the save: it runs only when ingest and save both
succeeded; the `catch` on line 101 does not delete the file. -/
def uploadRoute (existing : Option Session) (fileHash filename : String)
    (ingestResult : Option String) (saveSucceeds : Bool) : UploadExec :=
  match ingestResult with
  | none => { response := Except.error "Upload failed", tempFileDeleted := false }
  | some summary =>
    let s := match existing with
      | some s => s
      | none => newSession
    let s := attachDocument s fileHash filename summary
    if saveSucceeds then
      { response := Except.ok s, tempFileDeleted := true }
    else
      { response := Except.error "Upload failed", tempFileDeleted := false }

/- ### Route 2: POST /chat (send-message) -/

/-- `currentTopic` as computed on lines 126-128: the addressed topic when the
cursor is a valid index of a non-empty plan, else null. -/
def currentTopicOf (s : Session) : Option Topic :=
  if s.studyPlan.length > 0 ∧ 0 ≤ s.currentTopicIndex ∧
      s.currentTopicIndex < (s.studyPlan.length : Int) then
    s.studyPlan.get? s.currentTopicIndex.toNat
  else
    none

/-- Transition entry pushed by the automatic step (lines 158-161),
naming the completed and the new topic. -/
def chatTransitionMsg (completedName nextName : String) : Message :=
  { role := Role.assistant
    content := "**Topic Completed!**\n\nYou have demonstrated a good understanding of **"
      ++ completedName ++ "**.\nLet us move on to the next topic: **" ++ nextName ++ "**." }

/-- Plan-complete entry pushed by the automatic step (lines 164-167). -/
def chatPlanCompleteMsg : Message :=
  { role := Role.assistant
    content := "**Congratulations!**\n\nYou have completed the entire study plan for this document!" }

/-- The chat route when the gateway call succeeds (lines 119-171): append the
user message, append the assistant reply, then run the automatic
state-machine step when the gateway signalled `topic_completed` and the
addressed topic is not already completed. -/
def sendMessageOk (s : Session) (userMsg reply : String) (topicCompleted : Bool) : Session :=
  let s := { s with messages := s.messages ++ [Message.mk Role.user userMsg] }
  let currentTopic := currentTopicOf s
  let s := { s with messages := s.messages ++ [Message.mk Role.assistant reply] }
  match currentTopic with
  | none => s
  | some ct =>
    if topicCompleted ∧ ct.status ≠ "completed" then
      let currentIndex := s.currentTopicIndex.toNat
      let plan1 := setStatusAt s.studyPlan currentIndex "completed"
      let nextIndex := currentIndex + 1
      if nextIndex < plan1.length then
        let plan2 := setStatusAt plan1 nextIndex "in-progress"
        { s with studyPlan := plan2
                 currentTopicIndex := (nextIndex : Int)
                 messages := s.messages ++ [chatTransitionMsg ct.topic (topicNameAt plan2 nextIndex)] }
      else
        { s with studyPlan := plan1
                 messages := s.messages ++ [chatPlanCompleteMsg] }
    else s

/-- The chat route including the gateway outcome: the user message is pushed
and saved (line 120) before the gateway call, so a failed call (`none`)
leaves the session with the user message appended and nothing else. -/
def sendMessage (s : Session) (userMsg : String) (gw : Option (String × Bool)) : Session :=
  match gw with
  | none => { s with messages := s.messages ++ [Message.mk Role.user userMsg] }
  | some (reply, topicCompleted) => sendMessageOk s userMsg reply topicCompleted

/- ### Route 6: PUT /session/:sessionId/level (set-level) -/

/-- The set-level route (lines 226-244): validate the enum first; then
`findOneAndUpdate` returns the updated session, or null when no session
matches `(sessionId, userId)`, and the null is sent back as the JSON body
with status 200 — there is no not-found check. -/
def setLevelRoute (found : Option Session) (level : String) :
    Except String (Option Session) :=
  if level = "beginner" ∨ level = "intermediate" ∨ level = "advanced" then
    Except.ok (found.map fun s => { s with learningLevel := level })
  else
    Except.error "Invalid level"

/- ### Route 7: POST /session/:sessionId/plan (generate-plan) -/

/-- Announcement entry pushed after auto-starting the first topic
(lines 271-274). -/
def planGeneratedMsg (name desc : String) : Message :=
  { role := Role.assistant
    content := "**Study Plan Generated!**\n\nI have created a study plan based on your documents. We will start with: **"
      ++ name ++ "**.\n\n" ++ desc }

/-- The generate-plan route when the gateway call succeeds (lines 258-277):
replace `studyPlan` wholesale by the returned items, all "pending"; if
non-empty, promote topic 0 to "in-progress", set the cursor to 0 and push
the announcement entry. -/
def generatePlan (s : Session) (items : List PlanItem) : Session :=
  let s := { s with
    studyPlan := items.map fun it => Topic.mk it.topic it.description "pending" }
  if s.studyPlan.length > 0 then
    let plan := setStatusAt s.studyPlan 0 "in-progress"
    { s with studyPlan := plan
             currentTopicIndex := 0
             messages := s.messages ++ [planGeneratedMsg (topicNameAt plan 0) (topicDescAt plan 0)] }
  else s

/- ### Route 8: PUT /session/:sessionId/topic/:topicIndex (set-topic-status) -/

/-- Transition entry pushed by the manual promotion (lines 312-315). -/
def manualTransitionMsg (completedName nextName : String) : Message :=
  { role := Role.assistant
    content := "Great job completing **" ++ completedName ++
      "**!\n\nLet us move on to: **" ++ nextName ++ "**." }

/-- Plan-complete entry pushed by the manual route (lines 318-321). -/
def manualPlanCompleteMsg : Message :=
  { role := Role.assistant
    content := "Congratulations! You have completed the entire study plan!" }

/-- The set-topic-status route body after the session is found
(lines 297-328).  `topicIndex` is the parsed integer; an index that does not
address an existing topic (negative, out of range, or an empty/absent plan)
fails with status 400 before any mutation.  On success the returned session
is the one persisted. -/
def setTopicStatus (s : Session) (topicIndex : Int) (status : String) :
    Except String Session :=
  if topicIndex < 0 ∨ (s.studyPlan.length : Int) ≤ topicIndex then
    Except.error "Invalid topic index"
  else
    let i := topicIndex.toNat
    let plan1 := setStatusAt s.studyPlan i status
    if status = "completed" then
      let nextIndex := i + 1
      if nextIndex < plan1.length then
        if topicStatusAt plan1 nextIndex = "pending" then
          let plan2 := setStatusAt plan1 nextIndex "in-progress"
          Except.ok { s with studyPlan := plan2
                             currentTopicIndex := (nextIndex : Int)
                             messages := s.messages ++
              [manualTransitionMsg (topicNameAt plan2 i) (topicNameAt plan2 nextIndex)] }
        else
          Except.ok { s with studyPlan := plan1 }
      else
        Except.ok { s with studyPlan := plan1
                           messages := s.messages ++ [manualPlanCompleteMsg] }
    else if status = "in-progress" then
      Except.ok { s with studyPlan := plan1, currentTopicIndex := topicIndex }
    else
      Except.ok { s with studyPlan := plan1 }

/-- The set-topic-status route including `parseInt` of the path parameter:
`parseInt` of a non-numeric string is NaN, and `studyPlan[NaN]` is undefined,
so the route rejects it; we model the NaN case as `none`. -/
def setTopicStatusRoute (s : Session) (rawIndex : Option Int) (status : String) :
    Except String Session :=
  match rawIndex with
  | none => Except.error "Invalid topic index"
  | some i => setTopicStatus s i status

/-- The session state persisted after one call of the set-topic-status route:
a failed call persists nothing, so the stored session is unchanged. -/
def stepManual (s : Session) (rawIndex : Option Int) (status : String) : Session :=
  match setTopicStatusRoute s rawIndex status with
  | Except.ok s1 => s1
  | Except.error _ => s

/-- `stepManual` specialised to marking topic `i` completed. -/
def stepCompleted (s : Session) (i : Nat) : Session :=
  stepManual s (some (i : Int)) "completed"

/-- Applying `set-topic-status(i, completed)` for `i = 0, 1, ..., k-1`
left-to-right. -/
def applyCompletes (s : Session) : Nat → Session
  | 0 => s
  | k + 1 => stepCompleted (applyCompletes s k) k

/- ### Basic lemmas about the plan helpers -/

theorem length_setStatusAt (plan : List Topic) (i : Nat) (st : String) :
    (setStatusAt plan i st).length = plan.length := by
  unfold setStatusAt
  cases plan.get? i <;> simp

theorem statuses_length (plan : List Topic) : (statuses plan).length = plan.length := by
  simp [statuses]

theorem statuses_setStatusAt (plan : List Topic) (i : Nat) (st : String) :
    statuses (setStatusAt plan i st) = (statuses plan).set i st := by
  unfold setStatusAt
  cases h : plan.get? i with
  | none =>
    have hlen : plan.length ≤ i := List.get?_eq_none.mp h
    rw [List.set_eq_of_length_le]
    simpa [statuses] using hlen
  | some t => simp [statuses, List.map_set]

theorem topicStatusAt_eq_statuses (plan : List Topic) (i : Nat) :
    topicStatusAt plan i = ((statuses plan)[i]?).getD "" := by
  simp [topicStatusAt, statuses, List.get?_eq_getElem?, List.getElem?_map]

theorem topicNameAt_setStatusAt (plan : List Topic) (i : Nat) (st : String) (j : Nat) :
    topicNameAt (setStatusAt plan i st) j = topicNameAt plan j := by
  unfold setStatusAt topicNameAt
  cases h : plan.get? i with
  | none => rfl
  | some t =>
    rw [List.get?_eq_getElem?] at h
    obtain ⟨hlt, hget⟩ := List.getElem?_eq_some.mp h
    by_cases hij : i = j
    · subst hij
      simp [List.get?_eq_getElem?, List.getElem?_set, hlt, ← hget]
    · simp [List.get?_eq_getElem?, List.getElem?_set, hij]

theorem topicStatusAt_eq_of_get? {plan : List Topic} {i : Nat} {t : Topic}
    (h : plan.get? i = some t) : topicStatusAt plan i = t.status := by
  rw [List.get?_eq_getElem?] at h
  simp [topicStatusAt, List.get?_eq_getElem?, h]

theorem topicNameAt_eq_of_get? {plan : List Topic} {i : Nat} {t : Topic}
    (h : plan.get? i = some t) : topicNameAt plan i = t.topic := by
  rw [List.get?_eq_getElem?] at h
  simp [topicNameAt, List.get?_eq_getElem?, h]

theorem statuses_set_replicate_append_cons (k : Nat) (c b x : String) (tl : List String) :
    (List.replicate k c ++ x :: tl).set k b = List.replicate k c ++ b :: tl := by
  induction k with
  | zero => rfl
  | succ n ih => simp [List.replicate_succ, ih]

theorem getElem?_replicate_append_cons (k : Nat) (c x : String) (tl : List String) :
    (List.replicate k c ++ x :: tl)[k]? = some x := by
  rw [List.getElem?_append_right (by simp)]
  simp

theorem topicStatusAt_setStatusAt_self {plan : List Topic} {i : Nat}
    (hlt : i < plan.length) (st : String) :
    topicStatusAt (setStatusAt plan i st) i = st := by
  rw [topicStatusAt_eq_statuses, statuses_setStatusAt]
  have : i < (statuses plan).length := by rwa [statuses_length]
  simp [List.getElem?_set, this]

theorem topicStatusAt_setStatusAt_ne {plan : List Topic} {i j : Nat} (hij : i ≠ j)
    (st : String) :
    topicStatusAt (setStatusAt plan i st) j = topicStatusAt plan j := by
  rw [topicStatusAt_eq_statuses, statuses_setStatusAt, topicStatusAt_eq_statuses]
  simp [List.getElem?_set, hij]

theorem get?_setStatusAt_ne (plan : List Topic) {i j : Nat} (hij : j ≠ i) (st : String) :
    (setStatusAt plan i st).get? j = plan.get? j := by
  unfold setStatusAt
  cases h : plan.get? i with
  | none => rfl
  | some t => simp [List.get?_eq_getElem?, List.getElem?_set, Ne.symm hij]

/- ### Example data used by the witnesses -/

/-- Three topics as returned by the plan-generation gateway call. -/
def exItems : List PlanItem :=
  [PlanItem.mk "A" "da", PlanItem.mk "B" "db", PlanItem.mk "C" "dc"]

/-- A session holding a freshly generated three-topic plan. -/
def ex3 : Session := generatePlan newSession exItems

/-- `ex3` with its current topic already marked completed (stale-signal scenario). -/
def ex3stale : Session :=
  { ex3 with studyPlan := setStatusAt ex3.studyPlan 0 "completed" }

/- ### Claim C5: generate-plan replaces the plan wholesale -/

/-- C5: whenever the gateway call succeeds, generate-plan replaces the entire
study plan with the topics of the gateway response — the resulting plan
depends only on the response, never on the previous plan; every returned
topic starts "pending" and then, the plan being non-empty, topic 0 becomes
"in-progress", the cursor becomes 0, and exactly one announcement transcript
entry is appended.  In particular a second generate-plan leaves a plan whose
length and content match only the second response. -/
theorem generatePlan_replaces_wholesale (s sOther : Session) (items : List PlanItem)
    (hne : items ≠ []) :
    (generatePlan s items).studyPlan = (generatePlan sOther items).studyPlan ∧
    (generatePlan s items).studyPlan.length = items.length ∧
    statuses (generatePlan s items).studyPlan =
      "in-progress" :: List.replicate (items.length - 1) "pending" ∧
    (generatePlan s items).studyPlan.map (fun t => (t.topic, t.description)) =
      items.map (fun it => (it.topic, it.description)) ∧
    (generatePlan s items).currentTopicIndex = 0 ∧
    (generatePlan s items).messages = s.messages ++
      [planGeneratedMsg (items.head hne).topic (items.head hne).description] := by
  cases items with
  | nil => exact absurd rfl hne
  | cons it rest =>
    refine ⟨?_, ?_, ?_, ?_, ?_, ?_⟩ <;>
      simp [generatePlan, setStatusAt, statuses, topicNameAt, topicDescAt,
        List.map_map, List.map_const', Function.comp_def]

/-- Witness for C5 at a concrete three-topic response. -/
theorem generatePlan_replaces_wholesale_witness :
    (generatePlan newSession exItems).currentTopicIndex = 0 ∧
    statuses (generatePlan newSession exItems).studyPlan =
      "in-progress" :: List.replicate 2 "pending" :=
  ⟨(generatePlan_replaces_wholesale newSession ex3 exItems (by simp [exItems])).2.2.2.2.1,
   (generatePlan_replaces_wholesale newSession ex3 exItems (by simp [exItems])).2.2.1⟩

/- ### Claim C6: gateway failure during send-message -/

/-- C6: when the gateway chat call fails, send-message keeps the already
appended user message but appends no assistant reply, runs no automatic
state-machine step, and leaves the study plan and cursor unchanged. -/
theorem sendMessage_gateway_failure_partial_state (s : Session) (userMsg : String) :
    (sendMessage s userMsg none).studyPlan = s.studyPlan ∧
    (sendMessage s userMsg none).currentTopicIndex = s.currentTopicIndex ∧
    (sendMessage s userMsg none).messages = s.messages ++ [Message.mk Role.user userMsg] :=
  ⟨rfl, rfl, rfl⟩

/- ### Claim C7: temp file cleanup in the upload route -/

/-- C7 (refuting the spec): the upload route unlinks the temporary uploaded
file only on the fully successful path — when the ingest gateway call fails,
or the session-store save fails, the `catch` path returns without deleting
the file. -/
theorem uploadRoute_tempfile_not_deleted_on_failure :
    (uploadRoute none "h1" "doc.pdf" none true).tempFileDeleted = false ∧
    (uploadRoute (some newSession) "h1" "doc.pdf" (some "sum") false).tempFileDeleted = false ∧
    (uploadRoute none "h1" "doc.pdf" (some "sum") true).tempFileDeleted = true :=
  ⟨rfl, rfl, rfl⟩

/- ### Claim C8: fingerprint dedup invariants -/

/-- The dedup invariant of the document lists: no duplicate fingerprints, and
names stay index-aligned in count with fingerprints. -/
def DocInv (s : Session) : Prop :=
  s.fileHashes.Nodup ∧ s.filenames.length = s.fileHashes.length

theorem docInv_attachDocument {s : Session} (hs : DocInv s) (h n sum : String) :
    DocInv (attachDocument s h n sum) := by
  obtain ⟨hnd, hlen⟩ := hs
  unfold DocInv attachDocument
  by_cases hmem : h ∈ s.fileHashes
  · simp [hmem, hnd, hlen]
  · simp [hmem, List.nodup_append, hnd, hlen]

/-- A sequence of attach-document operations, each given as
(fingerprint, filename, summary). -/
def attachAll (s : Session) : List (String × String × String) → Session
  | [] => s
  | d :: ds => attachAll (attachDocument s d.1 d.2.1 d.2.2) ds

theorem docInv_attachAll {s : Session} (hs : DocInv s)
    (docs : List (String × String × String)) : DocInv (attachAll s docs) := by
  induction docs generalizing s with
  | nil => exact hs
  | cons d ds ih => exact ih (docInv_attachDocument hs d.1 d.2.1 d.2.2)

/-- C8: attaching a document whose fingerprint is already present leaves both
`fileHashes` and `filenames` unchanged (even under a different filename);
consequently after any sequence of attach-document operations from a fresh
session the fingerprints contain no duplicates and the names list has the
same length. -/
theorem attach_duplicate_ignored_and_nodup :
    (∀ (s : Session) (h n sum : String), h ∈ s.fileHashes →
      (attachDocument s h n sum).fileHashes = s.fileHashes ∧
      (attachDocument s h n sum).filenames = s.filenames) ∧
    (∀ docs : List (String × String × String),
      (attachAll newSession docs).fileHashes.Nodup ∧
      (attachAll newSession docs).filenames.length =
        (attachAll newSession docs).fileHashes.length) := by
  constructor
  · intro s h n sum hmem
    unfold attachDocument
    simp [hmem]
  · intro docs
    exact docInv_attachAll ⟨List.nodup_nil, rfl⟩ docs

/-- Witness for C8: re-attaching the same bytes under another name changes
neither list. -/
theorem attach_duplicate_ignored_witness :
    (attachDocument (attachDocument newSession "h1" "a.pdf" "s") "h1" "b.pdf" "s").fileHashes
        = (attachDocument newSession "h1" "a.pdf" "s").fileHashes ∧
    (attachDocument (attachDocument newSession "h1" "a.pdf" "s") "h1" "b.pdf" "s").filenames
        = (attachDocument newSession "h1" "a.pdf" "s").filenames :=
  attach_duplicate_ignored_and_nodup.1 _ "h1" "b.pdf" "s"
    (by simp [attachDocument, newSession])

/- ### Claim C9: invalid topic index -/

/-- C9: a set-topic-status call whose index does not resolve to an existing
topic (negative, out of range, non-numeric — modelled as `none` — or an
empty plan) fails with the invalid-argument response, and the persisted
session is completely unchanged. -/
theorem setTopicStatus_invalid_index_fails (s : Session) (raw : Option Int) (status : String)
    (hbad : ∀ i : Int, raw = some i → i < 0 ∨ (s.studyPlan.length : Int) ≤ i) :
    setTopicStatusRoute s raw status = Except.error "Invalid topic index" ∧
    stepManual s raw status = s := by
  cases raw with
  | none => exact ⟨rfl, rfl⟩
  | some i =>
    have h := hbad i rfl
    have herr : setTopicStatus s i status = Except.error "Invalid topic index" := by
      unfold setTopicStatus
      rw [if_pos h]
    exact ⟨herr, by simp [stepManual, setTopicStatusRoute, herr]⟩

/-- Witness for C9 at an out-of-range index of the example plan. -/
theorem setTopicStatus_invalid_index_fails_witness :
    setTopicStatusRoute ex3 (some 5) "completed" = Except.error "Invalid topic index" ∧
    stepManual ex3 (some 5) "completed" = ex3 :=
  setTopicStatus_invalid_index_fails ex3 (some 5) "completed"
    (by intro i hi; cases hi; right; decide)

/- ### Claim C10: set-level on a missing session -/

/-- C10: set-level with a valid level but a session id that matches nothing
for the caller does not fail with not-found — it responds successfully with
a null session body and mutates nothing; only an invalid level value yields
a failure response. -/
theorem setLevel_missing_session_succeeds_null (level : String)
    (hvalid : level = "beginner" ∨ level = "intermediate" ∨ level = "advanced") :
    setLevelRoute none level = Except.ok none ∧
    (∀ lv : String, ¬(lv = "beginner" ∨ lv = "intermediate" ∨ lv = "advanced") →
      ∀ found : Option Session, setLevelRoute found lv = Except.error "Invalid level") := by
  constructor
  · unfold setLevelRoute
    rw [if_pos hvalid]
    rfl
  · intro lv hlv found
    unfold setLevelRoute
    rw [if_neg hlv]

/-- Witness for C10 at the level "advanced" and the invalid level "expert". -/
theorem setLevel_missing_session_succeeds_null_witness :
    setLevelRoute none "advanced" = Except.ok none ∧
    setLevelRoute (some newSession) "expert" = Except.error "Invalid level" :=
  ⟨(setLevel_missing_session_succeeds_null "advanced" (by simp)).1,
   (setLevel_missing_session_succeeds_null "advanced" (by simp)).2 "expert"
     (by simp) (some newSession)⟩

/- ### Claim C2: manual completion with promotion only from "pending" -/

/-- C2: set-topic-status with "completed" at a valid index i marks topic i
completed; then, if topic i+1 exists with status exactly "pending", it is
promoted to "in-progress", the cursor becomes i+1 and one transition entry
is appended; if topic i+1 exists with any other status (in particular
"in-progress" or "completed"), topic i+1, the cursor and the transcript are
all unchanged; if no topic i+1 exists, a plan-complete entry is appended. -/
theorem setTopicStatus_completed_spec (s : Session) (i : Nat)
    (hlt : i < s.studyPlan.length) :
    ∃ s1, setTopicStatus s (i : Int) "completed" = Except.ok s1 ∧
      topicStatusAt s1.studyPlan i = "completed" ∧
      (i + 1 < s.studyPlan.length → topicStatusAt s.studyPlan (i + 1) = "pending" →
        topicStatusAt s1.studyPlan (i + 1) = "in-progress" ∧
        s1.currentTopicIndex = ((i + 1 : Nat) : Int) ∧
        s1.messages = s.messages ++
          [manualTransitionMsg (topicNameAt s.studyPlan i) (topicNameAt s.studyPlan (i + 1))]) ∧
      (i + 1 < s.studyPlan.length → topicStatusAt s.studyPlan (i + 1) ≠ "pending" →
        (∀ j : Nat, j ≠ i → s1.studyPlan.get? j = s.studyPlan.get? j) ∧
        s1.currentTopicIndex = s.currentTopicIndex ∧
        s1.messages = s.messages) ∧
      (i + 1 = s.studyPlan.length →
        s1.currentTopicIndex = s.currentTopicIndex ∧
        s1.messages = s.messages ++ [manualPlanCompleteMsg]) := by
  have hcond : ¬((i : Int) < 0 ∨ (s.studyPlan.length : Int) ≤ (i : Int)) := by omega
  have htn : ((i : Int)).toNat = i := by omega
  unfold setTopicStatus
  rw [if_neg hcond]
  simp only [htn, if_pos rfl]
  rw [length_setStatusAt]
  by_cases hn : i + 1 < s.studyPlan.length
  · rw [if_pos hn]
    by_cases hp : topicStatusAt s.studyPlan (i + 1) = "pending"
    · have hp' : topicStatusAt (setStatusAt s.studyPlan i "completed") (i + 1) = "pending" := by
        rwa [topicStatusAt_setStatusAt_ne (by omega)]
      rw [if_pos hp']
      refine ⟨_, rfl, ?_, ?_, ?_, ?_⟩
      · rw [topicStatusAt_setStatusAt_ne (by omega),
          topicStatusAt_setStatusAt_self hlt]
      · intro _ _
        refine ⟨?_, rfl, ?_⟩
        · rw [topicStatusAt_setStatusAt_self (by rwa [length_setStatusAt])]
        · rw [topicNameAt_setStatusAt, topicNameAt_setStatusAt,
            topicNameAt_setStatusAt, topicNameAt_setStatusAt]
      · intro _ habs
        exact absurd hp habs
      · intro habs
        omega
    · have hp' : ¬topicStatusAt (setStatusAt s.studyPlan i "completed") (i + 1) = "pending" := by
        rwa [topicStatusAt_setStatusAt_ne (by omega)]
      rw [if_neg hp']
      refine ⟨_, rfl, ?_, ?_, ?_, ?_⟩
      · exact topicStatusAt_setStatusAt_self hlt "completed"
      · intro _ hpend
        exact absurd hpend hp
      · intro _ _
        exact ⟨fun j hj => get?_setStatusAt_ne s.studyPlan hj "completed", rfl, rfl⟩
      · intro habs
        omega
  · rw [if_neg hn]
    refine ⟨_, rfl, ?_, ?_, ?_, ?_⟩
    · exact topicStatusAt_setStatusAt_self hlt "completed"
    · intro habs
      exact absurd habs hn
    · intro habs
      exact absurd habs hn
    · intro _
      exact ⟨rfl, rfl⟩

/-- Witness for C2: the scenario of the spec on the example plan A, B, C. -/
theorem setTopicStatus_completed_spec_witness :
    topicStatusAt (stepCompleted ex3 0).studyPlan 0 = "completed" ∧
    topicStatusAt (stepCompleted ex3 0).studyPlan 1 = "in-progress" ∧
    (stepCompleted ex3 0).currentTopicIndex = 1 := by
  obtain ⟨s1, heq, hcomp, hprom, -, -⟩ := setTopicStatus_completed_spec ex3 0 (by decide)
  have hs1 : stepCompleted ex3 0 = s1 := by
    simp [stepCompleted, stepManual, setTopicStatusRoute]
    rw [show ((0 : Nat) : Int) = (0 : Int) from rfl] at heq
    rw [heq]
  obtain ⟨hip, hcur, -⟩ := hprom (by decide) (by decide)
  rw [hs1]
  exact ⟨hcomp, hip, hcur⟩

/- ### Characterizing the automatic step of the chat route -/

theorem currentTopicOf_update_messages (s : Session) (m : List Message) :
    currentTopicOf { s with messages := m } = currentTopicOf s := rfl

theorem currentTopicOf_eq_get? {s : Session} {i : Nat}
    (hi : s.currentTopicIndex = (i : Int)) (hlt : i < s.studyPlan.length) :
    currentTopicOf s = s.studyPlan.get? i := by
  unfold currentTopicOf
  rw [if_pos ⟨by omega, by omega, by omega⟩, hi]
  simp

/-- When the gateway signals topic_completed and the addressed topic is not
already completed, the chat route completes it and advances (or announces
plan completion). -/
theorem sendMessageOk_step {s : Session} {i : Nat} {t : Topic}
    (hi : s.currentTopicIndex = (i : Int)) (ht : s.studyPlan.get? i = some t)
    (hst : t.status ≠ "completed") (userMsg reply : String) :
    sendMessageOk s userMsg reply true =
      if i + 1 < s.studyPlan.length then
        { s with studyPlan :=
                   setStatusAt (setStatusAt s.studyPlan i "completed") (i + 1) "in-progress"
                 currentTopicIndex := ((i + 1 : Nat) : Int)
                 messages := s.messages ++ [Message.mk Role.user userMsg,
                   Message.mk Role.assistant reply,
                   chatTransitionMsg t.topic (topicNameAt s.studyPlan (i + 1))] }
      else
        { s with studyPlan := setStatusAt s.studyPlan i "completed"
                 messages := s.messages ++ [Message.mk Role.user userMsg,
                   Message.mk Role.assistant reply, chatPlanCompleteMsg] } := by
  have ht' := ht
  rw [List.get?_eq_getElem?] at ht'
  obtain ⟨hlt, -⟩ := List.getElem?_eq_some.mp ht'
  have hct : currentTopicOf s = some t := by
    rw [currentTopicOf_eq_get? hi hlt]
    exact ht
  unfold sendMessageOk
  simp only [currentTopicOf_update_messages, hct]
  simp only [hi]
  rw [if_pos ⟨trivial, hst⟩]
  simp only [Int.toNat_natCast, length_setStatusAt]
  by_cases hn : i + 1 < s.studyPlan.length
  · rw [if_pos hn, if_pos hn]
    rw [topicNameAt_setStatusAt, topicNameAt_setStatusAt]
    simp
  · rw [if_neg hn, if_neg hn]
    simp

/-- When the addressed topic is already completed (stale signal), the gateway
signal is false, or the cursor addresses no topic, the chat route only
appends the user message and the assistant reply. -/
theorem sendMessageOk_noStep (s : Session) (userMsg reply : String) (tc : Bool)
    (h : ∀ t : Topic, currentTopicOf s = some t → tc = true → t.status = "completed") :
    sendMessageOk s userMsg reply tc =
      { s with messages := s.messages ++
          [Message.mk Role.user userMsg, Message.mk Role.assistant reply] } := by
  unfold sendMessageOk
  cases hct : currentTopicOf s with
  | none => simp [currentTopicOf_update_messages, hct]
  | some t =>
    have hts := h t hct
    simp only [currentTopicOf_update_messages, hct]
    rw [if_neg (by tauto)]
    simp

/- ### Claim C1: automatic state-machine step of send-message -/

/-- C1: for a chat call whose gateway response carries topic_completed = true:
if the cursor addresses a topic whose status is not "completed", that topic
becomes "completed"; if a topic exists at index+1, it becomes "in-progress",
the cursor becomes index+1, and exactly one synthesized entry naming both
topics is appended after the assistant reply; if no next topic exists, a
plan-complete entry is appended and the cursor stays at the last (completed)
topic.  If the addressed topic is already "completed", or the cursor
addresses no topic, plan and cursor are unchanged and the transcript gains
only the assistant reply (after the user message of the same turn). -/
theorem chat_topic_completed_step (s : Session) (userMsg reply : String) :
    (∀ i : Nat, s.currentTopicIndex = (i : Int) → i < s.studyPlan.length →
      topicStatusAt s.studyPlan i ≠ "completed" →
      topicStatusAt (sendMessageOk s userMsg reply true).studyPlan i = "completed" ∧
      (i + 1 < s.studyPlan.length →
        topicStatusAt (sendMessageOk s userMsg reply true).studyPlan (i + 1) = "in-progress" ∧
        (sendMessageOk s userMsg reply true).currentTopicIndex = ((i + 1 : Nat) : Int) ∧
        (sendMessageOk s userMsg reply true).messages = s.messages ++
          [Message.mk Role.user userMsg, Message.mk Role.assistant reply,
           chatTransitionMsg (topicNameAt s.studyPlan i) (topicNameAt s.studyPlan (i + 1))]) ∧
      (i + 1 = s.studyPlan.length →
        (sendMessageOk s userMsg reply true).currentTopicIndex = (i : Int) ∧
        (sendMessageOk s userMsg reply true).messages = s.messages ++
          [Message.mk Role.user userMsg, Message.mk Role.assistant reply,
           chatPlanCompleteMsg])) ∧
    (∀ i : Nat, s.currentTopicIndex = (i : Int) → i < s.studyPlan.length →
      topicStatusAt s.studyPlan i = "completed" →
      (sendMessageOk s userMsg reply true).studyPlan = s.studyPlan ∧
      (sendMessageOk s userMsg reply true).currentTopicIndex = s.currentTopicIndex ∧
      (sendMessageOk s userMsg reply true).messages = s.messages ++
        [Message.mk Role.user userMsg, Message.mk Role.assistant reply]) ∧
    (currentTopicOf s = none →
      (sendMessageOk s userMsg reply true).studyPlan = s.studyPlan ∧
      (sendMessageOk s userMsg reply true).currentTopicIndex = s.currentTopicIndex ∧
      (sendMessageOk s userMsg reply true).messages = s.messages ++
        [Message.mk Role.user userMsg, Message.mk Role.assistant reply]) := by
  refine ⟨?_, ?_, ?_⟩
  · intro i hi hlt hst
    obtain ⟨t, ht⟩ : ∃ t, s.studyPlan.get? i = some t := by
      rw [List.get?_eq_getElem?, List.getElem?_eq_getElem hlt]
      exact ⟨_, rfl⟩
    have hst' : t.status ≠ "completed" := by
      rwa [topicStatusAt_eq_of_get? ht] at hst
    rw [sendMessageOk_step hi ht hst' userMsg reply]
    by_cases hn : i + 1 < s.studyPlan.length
    · rw [if_pos hn]
      refine ⟨?_, fun _ => ⟨?_, rfl, ?_⟩, fun habs => by omega⟩
      · rw [topicStatusAt_setStatusAt_ne (by omega), topicStatusAt_setStatusAt_self hlt]
      · exact topicStatusAt_setStatusAt_self (by rwa [length_setStatusAt]) _
      · rw [topicNameAt_eq_of_get? ht]
    · rw [if_neg hn]
      refine ⟨topicStatusAt_setStatusAt_self hlt _, fun habs => absurd habs hn,
        fun _ => ⟨hi, rfl⟩⟩
  · intro i hi hlt hst
    obtain ⟨t, ht⟩ : ∃ t, s.studyPlan.get? i = some t := by
      rw [List.get?_eq_getElem?, List.getElem?_eq_getElem hlt]
      exact ⟨_, rfl⟩
    have hstc : t.status = "completed" := by
      rwa [topicStatusAt_eq_of_get? ht] at hst
    rw [sendMessageOk_noStep s userMsg reply true (fun t' hct' _ => by
      rw [currentTopicOf_eq_get? hi hlt, ht] at hct'
      cases hct'
      exact hstc)]
    exact ⟨rfl, rfl, rfl⟩
  · intro h
    rw [sendMessageOk_noStep s userMsg reply true (fun t' hct' _ => by
      rw [h] at hct'
      cases hct')]
    exact ⟨rfl, rfl, rfl⟩

/-- Witness for C1: the automatic advance on the example plan, and the
stale-signal scenario where the addressed topic is already completed. -/
theorem chat_topic_completed_step_witness :
    topicStatusAt (sendMessageOk ex3 "q" "r" true).studyPlan 0 = "completed" ∧
    topicStatusAt (sendMessageOk ex3 "q" "r" true).studyPlan 1 = "in-progress" ∧
    (sendMessageOk ex3 "q" "r" true).currentTopicIndex = ((1 : Nat) : Int) ∧
    (sendMessageOk ex3stale "q" "r" true).studyPlan = ex3stale.studyPlan ∧
    (sendMessageOk ex3stale "q" "r" true).messages = ex3stale.messages ++
      [Message.mk Role.user "q", Message.mk Role.assistant "r"] := by
  obtain ⟨hmain, -, -⟩ := chat_topic_completed_step ex3 "q" "r"
  obtain ⟨hc, hnext, -⟩ := hmain 0 (by decide) (by decide) (by decide)
  obtain ⟨hip, hcur, -⟩ := hnext (by decide)
  obtain ⟨hplan, -, hmsg⟩ := (chat_topic_completed_step ex3stale "q" "r").2.1 0
    (by decide) (by decide) (by decide)
  exact ⟨hc, hip, hcur, hplan, hmsg⟩

/- ### Canonical shapes of the study plan under left-to-right completion -/

theorem repl_append_cons_self (k : Nat) (c : String) (tl : List String) :
    List.replicate k c ++ c :: tl = List.replicate (k + 1) c ++ tl := by
  rw [List.replicate_succ', List.append_assoc]
  rfl

theorem getElem?_repl_append_cons_succ (k : Nat) (c x : String) (tl : List String) :
    (List.replicate k c ++ x :: tl)[k + 1]? = tl[0]? := by
  rw [List.getElem?_append_right (by simp)]
  simp

/-- The statuses and cursor produced by a successful generate-plan call. -/
theorem statuses_generatePlan (s : Session) (items : List PlanItem) (hne : items ≠ []) :
    statuses (generatePlan s items).studyPlan =
      "in-progress" :: List.replicate (items.length - 1) "pending" ∧
    (generatePlan s items).currentTopicIndex = 0 := by
  cases items with
  | nil => exact absurd rfl hne
  | cons it rest =>
    constructor <;>
      simp [generatePlan, setStatusAt, statuses, List.map_const', Function.comp_def]

/-- Full unfolding of the manual route for status "completed" at a valid index. -/
theorem setTopicStatus_completed_eq (s : Session) (i : Nat)
    (hlt : i < s.studyPlan.length) :
    setTopicStatus s (i : Int) "completed" =
      if i + 1 < s.studyPlan.length then
        (if topicStatusAt s.studyPlan (i + 1) = "pending" then
          Except.ok { s with
            studyPlan :=
              setStatusAt (setStatusAt s.studyPlan i "completed") (i + 1) "in-progress"
            currentTopicIndex := ((i + 1 : Nat) : Int)
            messages := s.messages ++ [manualTransitionMsg (topicNameAt s.studyPlan i)
              (topicNameAt s.studyPlan (i + 1))] }
        else Except.ok { s with studyPlan := setStatusAt s.studyPlan i "completed" })
      else
        Except.ok { s with studyPlan := setStatusAt s.studyPlan i "completed"
                           messages := s.messages ++ [manualPlanCompleteMsg] } := by
  unfold setTopicStatus
  rw [if_neg (by omega)]
  simp only [Int.toNat_natCast, if_pos rfl, if_true]
  rw [length_setStatusAt]
  by_cases hn : i + 1 < s.studyPlan.length
  · rw [if_pos hn, if_pos hn]
    by_cases hp : topicStatusAt s.studyPlan (i + 1) = "pending"
    · have hp' : topicStatusAt (setStatusAt s.studyPlan i "completed") (i + 1) = "pending" := by
        rwa [topicStatusAt_setStatusAt_ne (by omega)]
      rw [if_pos hp', if_pos hp]
      rw [topicNameAt_setStatusAt, topicNameAt_setStatusAt,
        topicNameAt_setStatusAt, topicNameAt_setStatusAt]
    · have hp' : ¬topicStatusAt (setStatusAt s.studyPlan i "completed") (i + 1) = "pending" := by
        rwa [topicStatusAt_setStatusAt_ne (by omega)]
      rw [if_neg hp', if_neg hp]
  · rw [if_neg hn, if_neg hn]

/-- One manual completion at the cursor of a canonical plan state. -/
theorem stepCompleted_canonical {s : Session} {k N : Nat}
    (hstat : statuses s.studyPlan = List.replicate k "completed" ++
      "in-progress" :: List.replicate (N - k - 1) "pending")
    (hcur : s.currentTopicIndex = (k : Int)) (hkN : k < N) :
    statuses (stepCompleted s k).studyPlan =
      (if k + 1 < N then
        List.replicate (k + 1) "completed" ++
          "in-progress" :: List.replicate (N - k - 2) "pending"
      else List.replicate N "completed") ∧
    (stepCompleted s k).currentTopicIndex =
      (if k + 1 < N then ((k + 1 : Nat) : Int) else (k : Int)) := by
  have hlen : s.studyPlan.length = N := by
    have hl := congrArg List.length hstat
    rw [statuses_length] at hl
    simp at hl
    omega
  have heq := setTopicStatus_completed_eq s k (by omega)
  unfold stepCompleted stepManual setTopicStatusRoute
  simp only [heq, hlen]
  by_cases hn : k + 1 < N
  · have hp : topicStatusAt s.studyPlan (k + 1) = "pending" := by
      rw [topicStatusAt_eq_statuses, hstat, getElem?_repl_append_cons_succ,
        List.getElem?_replicate, if_pos (by omega)]
      rfl
    rw [if_pos hn, if_pos hp]
    refine ⟨?_, ?_⟩
    · show statuses (setStatusAt (setStatusAt s.studyPlan k "completed")
        (k + 1) "in-progress") = _
      rw [statuses_setStatusAt, statuses_setStatusAt, hstat,
        statuses_set_replicate_append_cons, repl_append_cons_self]
      have hm : N - k - 1 = (N - k - 2) + 1 := by omega
      rw [hm, List.replicate_succ "pending" (N - k - 2),
        statuses_set_replicate_append_cons, if_pos hn]
    · show ((k + 1 : Nat) : Int) = _
      rw [if_pos hn]
  · rw [if_neg hn]
    refine ⟨?_, ?_⟩
    · show statuses (setStatusAt s.studyPlan k "completed") = _
      rw [statuses_setStatusAt, hstat, statuses_set_replicate_append_cons,
        repl_append_cons_self]
      have hm : N - k - 1 = 0 := by omega
      have hkn1 : k + 1 = N := by omega
      rw [hm, if_neg hn, hkn1]
      simp
    · show s.currentTopicIndex = _
      rw [hcur, if_neg hn]

/-- State after completing topics 0..k-1 left-to-right over a fresh plan. -/
theorem applyCompletes_canonical (s0 : Session) (items : List PlanItem)
    (hne : items ≠ []) :
    ∀ k, k ≤ items.length →
      statuses (applyCompletes (generatePlan s0 items) k).studyPlan =
        List.replicate k "completed" ++
          (if k < items.length then
            "in-progress" :: List.replicate (items.length - k - 1) "pending"
          else []) ∧
      (applyCompletes (generatePlan s0 items) k).currentTopicIndex =
        (if k < items.length then (k : Int) else ((items.length - 1 : Nat) : Int)) := by
  intro k
  induction k with
  | zero =>
    intro _
    have hpos : 0 < items.length := List.length_pos.mpr hne
    obtain ⟨h1, h2⟩ := statuses_generatePlan s0 items hne
    rw [if_pos hpos, if_pos hpos]
    exact ⟨by simpa using h1, by simpa using h2⟩
  | succ k ih =>
    intro hk1
    have hkN : k < items.length := by omega
    obtain ⟨hstat, hcur⟩ := ih (by omega)
    rw [if_pos hkN] at hstat hcur
    obtain ⟨hstat', hcur'⟩ :=
      stepCompleted_canonical (N := items.length) hstat hcur hkN
    constructor
    · show statuses (stepCompleted (applyCompletes (generatePlan s0 items) k) k).studyPlan = _
      rw [hstat']
      by_cases hn : k + 1 < items.length
      · rw [if_pos hn, if_pos hn]
        have : items.length - k - 2 = items.length - (k + 1) - 1 := by omega
        rw [this]
      · rw [if_neg hn, if_neg hn]
        have : k + 1 = items.length := by omega
        rw [this]
        simp
    · show (stepCompleted (applyCompletes (generatePlan s0 items) k) k).currentTopicIndex = _
      rw [hcur']
      by_cases hn : k + 1 < items.length
      · rw [if_pos hn, if_pos hn]
      · rw [if_neg hn, if_neg hn]
        have : k = items.length - 1 := by omega
        rw [this]

/- ### Claim C3: exactly one in-progress topic under left-to-right completion -/

/-- C3: over a freshly generated plan of N topics, applying
set-topic-status(i, completed) for i = 0, ..., N-1 left-to-right leaves,
after each of the first N-1 calls, exactly one topic "in-progress"; after
the last call all N topics are "completed" and none is "in-progress". -/
theorem completes_left_to_right_single_inProgress (items : List PlanItem)
    (hne : items ≠ []) (k : Nat) (hk : k ≤ items.length) :
    (k < items.length →
      countInProgress (applyCompletes (generatePlan newSession items) k).studyPlan = 1) ∧
    (k = items.length →
      countInProgress (applyCompletes (generatePlan newSession items) k).studyPlan = 0 ∧
      ∀ j, j < items.length →
        topicStatusAt (applyCompletes (generatePlan newSession items) k).studyPlan j
          = "completed") := by
  obtain ⟨hstat, -⟩ := applyCompletes_canonical newSession items hne k hk
  constructor
  · intro hlt
    rw [if_pos hlt] at hstat
    unfold countInProgress
    rw [hstat]
    simp [List.count_append, List.count_replicate, List.count_cons]
  · intro heq
    rw [if_neg (by omega)] at hstat
    simp only [List.append_nil] at hstat
    refine ⟨?_, ?_⟩
    · unfold countInProgress
      rw [hstat]
      simp [List.count_replicate]
    · intro j hj
      rw [topicStatusAt_eq_statuses, hstat, List.getElem?_replicate, if_pos (by omega)]
      rfl

/-- Witness for C3 on the example three-topic plan, after two and three calls. -/
theorem completes_left_to_right_single_inProgress_witness :
    countInProgress (applyCompletes (generatePlan newSession exItems) 2).studyPlan = 1 ∧
    countInProgress (applyCompletes (generatePlan newSession exItems) 3).studyPlan = 0 :=
  ⟨(completes_left_to_right_single_inProgress exItems (by simp [exItems]) 2
      (by decide)).1 (by decide),
   ((completes_left_to_right_single_inProgress exItems (by simp [exItems]) 3
      (by decide)).2 rfl).1⟩

/- ### Claim C4: at most one in-progress topic -/

/-- Every "in-progress" topic sits at the cursor. -/
def IPAtCursor (s : Session) : Prop :=
  ∀ j : Nat, (statuses s.studyPlan)[j]? = some "in-progress" →
    (j : Int) = s.currentTopicIndex

theorem ipAtCursor_of_plan_cursor_eq {s s' : Session}
    (hp : s'.studyPlan = s.studyPlan) (hc : s'.currentTopicIndex = s.currentTopicIndex)
    (h : IPAtCursor s) : IPAtCursor s' := by
  intro j hj
  rw [hp] at hj
  rw [hc]
  exact h j hj

theorem attachDocument_studyPlan (s : Session) (hash n sum : String) :
    (attachDocument s hash n sum).studyPlan = s.studyPlan := by
  unfold attachDocument
  split <;> rfl

theorem attachDocument_cursor (s : Session) (hash n sum : String) :
    (attachDocument s hash n sum).currentTopicIndex = s.currentTopicIndex := by
  unfold attachDocument
  split <;> rfl

theorem currentTopicOf_some_elim {s : Session} {t : Topic}
    (h : currentTopicOf s = some t) :
    ∃ i : Nat, s.currentTopicIndex = (i : Int) ∧ s.studyPlan.get? i = some t := by
  unfold currentTopicOf at h
  split at h
  · rename_i hc
    exact ⟨s.currentTopicIndex.toNat, by omega, h⟩
  · cases h

theorem ipAtCursor_generatePlan (s : Session) (items : List PlanItem) :
    IPAtCursor (generatePlan s items) := by
  cases items with
  | nil =>
    intro j hj
    simp [generatePlan, statuses] at hj
  | cons it rest =>
    obtain ⟨hstat, hcur⟩ := statuses_generatePlan s (it :: rest) (by simp)
    intro j hj
    rw [hstat] at hj
    rw [hcur]
    cases j with
    | zero => rfl
    | succ m =>
      rw [List.getElem?_cons_succ, List.getElem?_replicate] at hj
      split at hj
      · simp at hj
      · cases hj

theorem ipAtCursor_sendMessage {s : Session} (h : IPAtCursor s) (m : String)
    (gw : Option (String × Bool)) : IPAtCursor (sendMessage s m gw) := by
  match gw with
  | none => exact ipAtCursor_of_plan_cursor_eq rfl rfl h
  | some (reply, tc) =>
    show IPAtCursor (sendMessageOk s m reply tc)
    by_cases hstep : ∃ (i : Nat) (t : Topic), s.currentTopicIndex = (i : Int) ∧
        s.studyPlan.get? i = some t ∧ tc = true ∧ t.status ≠ "completed"
    · obtain ⟨i, t, hi, ht, htc, hst⟩ := hstep
      subst htc
      rw [sendMessageOk_step hi ht hst]
      by_cases hn : i + 1 < s.studyPlan.length
      · rw [if_pos hn]
        intro j hj
        show (j : Int) = ((i + 1 : Nat) : Int)
        rw [statuses_setStatusAt, statuses_setStatusAt, List.getElem?_set] at hj
        split at hj
        · rename_i hj1
          omega
        · rename_i hj1
          rw [List.getElem?_set] at hj
          split at hj
          · rename_i hji
            split at hj
            · simp at hj
            · cases hj
          · rename_i hji
            have hcontra := h j hj
            rw [hi] at hcontra
            omega
      · rw [if_neg hn]
        intro j hj
        rw [statuses_setStatusAt, List.getElem?_set] at hj
        split at hj
        · split at hj
          · simp at hj
          · cases hj
        · exact h j hj
    · rw [sendMessageOk_noStep s m reply tc (fun t hct htc => by
        by_contra hstc
        obtain ⟨i, hi, ht⟩ := currentTopicOf_some_elim hct
        exact hstep ⟨i, t, hi, ht, htc, hstc⟩)]
      exact ipAtCursor_of_plan_cursor_eq rfl rfl h

/-- The orchestrator operations that drive the state machine without writing
an explicit status through the manual route: session creation,
attach-document, send-message (with any gateway outcome), generate-plan and
set-level.  Manual set-topic-status is excluded: the counterexample shows it
can violate the single-in-progress bound. -/
inductive AutoReach : Session → Prop where
  | init : AutoReach newSession
  | attach (s : Session) (hash n sum : String) :
      AutoReach s → AutoReach (attachDocument s hash n sum)
  | chat (s : Session) (m : String) (gw : Option (String × Bool)) :
      AutoReach s → AutoReach (sendMessage s m gw)
  | plan (s : Session) (items : List PlanItem) :
      AutoReach s → AutoReach (generatePlan s items)
  | level (s : Session) (lv : String) :
      AutoReach s → AutoReach { s with learningLevel := lv }

theorem ipAtCursor_of_autoReach {s : Session} (h : AutoReach s) : IPAtCursor s := by
  induction h with
  | init =>
    intro j hj
    simp [newSession, statuses] at hj
  | attach s hash n sum _ ih =>
    exact ipAtCursor_of_plan_cursor_eq (attachDocument_studyPlan s hash n sum)
      (attachDocument_cursor s hash n sum) ih
  | chat s m gw _ ih => exact ipAtCursor_sendMessage ih m gw
  | plan s items _ _ => exact ipAtCursor_generatePlan s items
  | level s lv _ ih => exact ipAtCursor_of_plan_cursor_eq rfl rfl ih

theorem count_inProgress_le_one_of_unique (l : List String) (c : Int)
    (h : ∀ j : Nat, l[j]? = some "in-progress" → (j : Int) = c) :
    l.count "in-progress" ≤ 1 := by
  induction l generalizing c with
  | nil => simp
  | cons x xs ih =>
    rw [List.count_cons]
    by_cases hx : x = "in-progress"
    · subst hx
      have hc : (0 : Int) = c := h 0 (by simp)
      have hzero : xs.count "in-progress" = 0 := by
        rw [List.count_eq_zero]
        intro hmem
        obtain ⟨n, hn⟩ := List.mem_iff_get?.mp hmem
        rw [List.get?_eq_getElem?] at hn
        have := h (n + 1) (by rw [List.getElem?_cons_succ]; exact hn)
        omega
      simp [hzero]
    · have hrec : xs.count "in-progress" ≤ 1 := ih (c - 1) (fun j hj => by
        have := h (j + 1) (by rw [List.getElem?_cons_succ]; exact hj)
        push_cast at this ⊢
        omega)
      have hxb : (x == "in-progress") = false := by
        simpa using hx
      rw [hxb]
      simpa using hrec

/-- C4 counterexample: from a freshly generated three-topic plan (topic 0
"in-progress"), the manual route set-topic-status(1, "completed") — a valid
index — completes topic 1 and promotes topic 2 to "in-progress" while topic
0 stays "in-progress": two topics are "in-progress" at once, refuting the
claim for sequences that include manual set-topic-status. -/
theorem two_inProgress_after_manual_skip :
    countInProgress (stepManual ex3 (some 1) "completed").studyPlan = 2 := by
  decide

/-- C4 amended: at most one topic is "in-progress" in every session state
reachable through session creation, attach-document, set-level, generate-plan
and send-message (including its automatic step).  Manual set-topic-status is
excluded: completing a topic ahead of the cursor, or writing "in-progress"
directly, violates the bound. -/
theorem autoReach_at_most_one_inProgress (s : Session) (h : AutoReach s) :
    countInProgress s.studyPlan ≤ 1 :=
  count_inProgress_le_one_of_unique _ s.currentTopicIndex (ipAtCursor_of_autoReach h)

/-- Witness for the amended C4 at a concrete reachable state: a fresh plan
followed by a chat turn that completes the current topic. -/
theorem autoReach_at_most_one_inProgress_witness :
    countInProgress (sendMessage (generatePlan newSession exItems) "q"
      (some ("r", true))).studyPlan ≤ 1 :=
  autoReach_at_most_one_inProgress _
    (AutoReach.chat (generatePlan newSession exItems) "q" (some ("r", true))
      (AutoReach.plan newSession exItems AutoReach.init))

end Socratic
